import Mathlib

/-!
Verification of the ExistChat polling/synchronization contract.

Shallow embedding of the server-side core: the Redis-backed entity
repository (`src/lib/redis.ts`), the combined polling endpoint
(`/api/poll`, multi-room variant) and the rooms DELETE route.
Stateful store operations are modelled by explicit state passing over
association lists; the external JSON (de)serialization performed by the
JavaScript runtime is modelled by tagging each stored value with whether
it is an already-deserialized object, a well-formed JSON string encoding
a record, or an unparseable string.
-/

namespace ExistChat

/-- JavaScript falsiness of an optional string value: `!x` is true when the
value is absent (`null`/`undefined`) or the empty string. -/
def jsStrFalsy : Option String → Bool
  | none => true
  | some s => s == ""

/-- JavaScript falsiness of an optional numeric value: `!x` is true when the
value is absent or `0`. -/
def jsIntFalsy : Option Int → Bool
  | none => true
  | some n => n == 0

/-- Association-list lookup, first match wins (models a store hash field read). -/
def hlookup {α : Type} : List (String × α) → String → Option α
  | [], _ => none
  | (k, v) :: rest, key => if k = key then some v else hlookup rest key

/-- Association-list field write: replace the first binding of the key, or
append a new binding (models HSET on a single field). -/
def hset {α : Type} : List (String × α) → String → α → List (String × α)
  | [], key, v => [(key, v)]
  | (k, w) :: rest, key, v =>
    if k = key then (key, v) :: rest else (k, w) :: hset rest key v

/-- Association-list field delete (models HDEL). -/
def hdel {α : Type} (st : List (String × α)) (key : String) : List (String × α) :=
  st.filter (fun p => decide (p.1 ≠ key))

/-- Message kind, `"message" | "system"` in the source. -/
inductive MsgType where
  | message
  | system
deriving DecidableEq, Repr

/-- File attachment carried by a message (interface `ChatMessage.file`). -/
structure FileData where
  name : String
  mime : String
  url : String
  size : Int
deriving DecidableEq, Repr

/-- A chat message as it appears at runtime. `content` and `roomId` are
optional because the JavaScript objects may lack them (content may be absent
when a file is attached; the single-room historical variant has no roomId). -/
structure ChatMessage where
  id : String
  content : Option String
  sender : String
  senderId : String
  timestamp : Int
  type : MsgType
  roomId : Option String
  file : Option FileData
deriving DecidableEq, Repr

/-- A value stored in a room's Redis list, as observed by `lrange`: either an
already-deserialized object, a valid JSON string encoding a message, or a
string that fails JSON parsing. -/
inductive RedisVal where
  | objVal (m : ChatMessage)
  | jsonVal (m : ChatMessage)
  | badVal (s : String)
deriving DecidableEq, Repr

/-- The synthetic message substituted by `getMessages` when a stored entry
fails JSON parsing (src/lib/redis.ts:53-60). -/
def errorMessage (now : Int) : ChatMessage :=
  { id := "error"
    content := some "Error loading message"
    sender := "System"
    senderId := "system"
    timestamp := now
    type := MsgType.system
    roomId := none
    file := none }

/-- The per-entry normalization in `getMessages` (src/lib/redis.ts:41-62):
objects pass through, JSON strings are parsed, unparseable strings become
the synthetic error message stamped with the current time. -/
def parseMessageEntry (now : Int) : RedisVal → ChatMessage
  | RedisVal.objVal m => m
  | RedisVal.jsonVal m => m
  | RedisVal.badVal _ => errorMessage now

/-- `getMessages` (src/lib/redis.ts:34-68): reads the whole list, normalizes
every entry, and keeps only messages from the last hour; if the store read
itself fails the result is the empty list. -/
def getMessages (lrangeResult : Except String (List RedisVal)) (now : Int) :
    List ChatMessage :=
  match lrangeResult with
  | Except.error _ => []
  | Except.ok messages =>
    let oneHourAgo := now - 60 * 60 * 1000
    (messages.map (parseMessageEntry now)).filter
      (fun msg => decide (oneHourAgo ≤ msg.timestamp))

/-- Events published on the `chat:updates` channel. -/
inductive PubEvent where
  | newMessage (m : ChatMessage)
  | userUpdate (id name : String) (lastSeen : Int) (currentRoomId : Option String)
  | userRemove (id : String)
deriving DecidableEq, Repr

/-- `addMessage` (src/lib/redis.ts:71-92) on a single room list: the message
is JSON-serialized, appended at the end with `rpush`, and a `new-message`
notification is published. -/
def addMessageList (st : List RedisVal) (message : ChatMessage) :
    List RedisVal × PubEvent :=
  (st ++ [RedisVal.jsonVal message], PubEvent.newMessage message)

/-- The timestamp extracted from a stored entry by `deleteOldMessages`
(src/lib/redis.ts:102-111): parse failures default to the current time, so
unparseable entries are never selected for deletion. -/
def msgTimestamp (now : Int) : RedisVal → Int
  | RedisVal.objVal m => m.timestamp
  | RedisVal.jsonVal m => m.timestamp
  | RedisVal.badVal _ => now

/-- JavaScript truthiness of a value returned by `lindex`: objects and
non-empty strings are truthy, the empty string is falsy. -/
def redisValTruthy : RedisVal → Bool
  | RedisVal.objVal _ => true
  | RedisVal.jsonVal _ => true
  | RedisVal.badVal s => s != ""

/-- `LREM key 1 value`: remove the first occurrence of the value. -/
def lrem1 : List RedisVal → RedisVal → List RedisVal
  | [], _ => []
  | x :: xs, v => if x = v then xs else x :: lrem1 xs v

/-- The deletion loop of `deleteOldMessages` (src/lib/redis.ts:115-127): for
each index recorded against the original snapshot, read the entry now at that
index in the current (already mutated) list and `lrem` its first occurrence.
An absent or falsy entry is skipped; a skipped entry does not count. -/
def purgeLoop : List RedisVal → Nat → List Nat → List RedisVal × Nat
  | cur, cnt, [] => (cur, cnt)
  | cur, cnt, i :: is =>
    match cur[i]? with
    | some v =>
      if redisValTruthy v then purgeLoop (lrem1 cur v) (cnt + 1) is
      else purgeLoop cur cnt is
    | none => purgeLoop cur cnt is

/-- `deleteOldMessages` (src/lib/redis.ts:95-135): snapshot the list, record
the indices of entries older than one hour, then delete them one by one by
current index. Returns the mutated list and the reported deletion count. -/
def deleteOldMessagesList (st : List RedisVal) (now : Int) :
    List RedisVal × Nat :=
  let oneHourAgo := now - 60 * 60 * 1000
  let messagesToDelete :=
    (st.enum.filter (fun p => decide (msgTimestamp now p.2 < oneHourAgo))).map
      Prod.fst
  purgeLoop st 0 messagesToDelete

/-- A user record as serialized by `updateUser`: exactly the fields
`{name, lastSeen}` (src/lib/redis.ts:183-186). -/
structure StoredUser where
  name : String
  lastSeen : Int
deriving DecidableEq, Repr

/-- A value stored in the user hash, as observed by `hgetall`. -/
inductive UserVal where
  | objVal (u : StoredUser)
  | jsonVal (u : StoredUser)
  | badVal (s : String)
deriving DecidableEq, Repr

/-- A directory entry as returned by `getUsers` (interface `ChatUser`). -/
structure ChatUser where
  id : String
  name : String
  lastSeen : Int
deriving DecidableEq, Repr

/-- The per-entry normalization in `getUsers` (src/lib/redis.ts:144-170):
already-deserialized objects get `|| "Unknown"` / `|| Date.now()` fallbacks
on falsy fields, JSON strings are parsed verbatim, unparseable strings
become `{name := "Unknown", lastSeen := now}`. -/
def parseUserEntry (now : Int) : String × UserVal → ChatUser
  | (id, UserVal.objVal u) =>
    { id := id
      name := if u.name = "" then "Unknown" else u.name
      lastSeen := if u.lastSeen = 0 then now else u.lastSeen }
  | (id, UserVal.jsonVal u) => { id := id, name := u.name, lastSeen := u.lastSeen }
  | (id, UserVal.badVal _) => { id := id, name := "Unknown", lastSeen := now }

/-- `getUsers` (src/lib/redis.ts:138-175) on a concrete hash state: every
directory entry is returned, none filtered. -/
def getUsersList (st : List (String × UserVal)) (now : Int) : List ChatUser :=
  st.map (parseUserEntry now)

/-- The user object posted by the client heartbeat: the multi-room client
attaches `currentRoomId` to the record it sends (part_002:131-134). -/
structure HeartbeatUser where
  id : String
  name : String
  lastSeen : Int
  currentRoomId : Option String
deriving DecidableEq, Repr

/-- `updateUser` (src/lib/redis.ts:178-206): serializes exactly
`{name, lastSeen}` of the given record, writes it under the record's id with
HSET, and publishes a `user-update` notification carrying the full record. -/
def updateUser (st : List (String × UserVal)) (user : HeartbeatUser) :
    List (String × UserVal) × PubEvent :=
  let userData := UserVal.jsonVal { name := user.name, lastSeen := user.lastSeen }
  (hset st user.id userData,
   PubEvent.userUpdate user.id user.name user.lastSeen user.currentRoomId)

/-- A chatroom record (interface `Chatroom`, fields as used by the rooms
route in src/lib/redis.ts:476-499). -/
structure Chatroom where
  id : String
  name : String
  description : String
  createdBy : String
  isPrivate : Bool
  members : List String
  createdAt : Int
deriving DecidableEq, Repr

/-- The persisted server state: per-room ordered message lists, the user
hash, the room hash, and the process-wide last-cleanup timestamp held by the
polling module (part_006:14-16). -/
structure StoreState where
  messagesByRoom : List (String × List RedisVal)
  users : List (String × UserVal)
  rooms : List (String × Chatroom)
  lastCleanupTime : Int
deriving DecidableEq, Repr

/-- Modelled from the spec: the multi-room `getMessages(roomId)` called by
part_006:44 is absent from src; per the spec's `listSince` it returns the
room's retained window, modelled as the in-src single-list `getMessages`
(src/lib/redis.ts:34-68) applied to that room's own list. -/
def getMessagesRoom (msgs : List (String × List RedisVal)) (roomId : String)
    (now : Int) : List ChatMessage :=
  getMessages (Except.ok ((hlookup msgs roomId).getD [])) now

/-- Modelled from the spec: the multi-room `addMessage` called by
part_006:145 is absent from src; it appends the serialized message to its
room's list (the in-src `addMessage`, src/lib/redis.ts:71-92, keyed by the
message's room). -/
def addMessageRoom (msgs : List (String × List RedisVal)) (m : ChatMessage) :
    List (String × List RedisVal) × PubEvent :=
  let roomId := (m.roomId).getD ""
  let updated := addMessageList ((hlookup msgs roomId).getD []) m
  (hset msgs roomId updated.1, updated.2)

/-- Modelled from the spec: `getChatrooms` (the room catalog read,
part_006:71) is absent from src; it lists every stored room record. -/
def getChatroomsList (rooms : List (String × Chatroom)) : List Chatroom :=
  rooms.map Prod.snd

/-- Modelled from the spec: `getChatroom(roomId)` (the read-only room lookup
used by the rooms DELETE route, src/lib/redis.ts:562) is absent from src; it
returns the stored record or not-found. -/
def getChatroom (rooms : List (String × Chatroom)) (roomId : String) :
    Option Chatroom :=
  hlookup rooms roomId

/-- Modelled from the spec: `getUsersInRoom(roomId)` (part_006:53) is absent
from src; it returns the directory entries of the room's member set. -/
def getUsersInRoom (st : StoreState) (roomId : String) (now : Int) :
    List ChatUser :=
  match getChatroom st.rooms roomId with
  | none => []
  | some room =>
    (getUsersList st.users now).filter (fun u => room.members.contains u.id)

/-- Modelled from the spec: `deleteAllOldMessages` (part_006:34) is absent
from src; per the spec's all-rooms `purgeExpired` it runs the in-src
`deleteOldMessages` sweep over every room's list. -/
def deleteAllOldMessages (msgs : List (String × List RedisVal)) (now : Int) :
    List (String × List RedisVal) :=
  msgs.map (fun p => (p.1, (deleteOldMessagesList p.2 now).1))

/-- The fixed maintenance interval of the polling module (part_006:16). -/
def CLEANUP_INTERVAL : Int := 5 * 60 * 1000

/-- The cleanup gate at the top of the polling read path (part_006:30-39):
run the purge and record the time only when more than the interval has
elapsed since the recorded last cleanup. Returns the new recorded time and
whether the purge ran. -/
def cleanupGate (lastCleanupTime now : Int) : Int × Bool :=
  if CLEANUP_INTERVAL < now - lastCleanupTime then (now, true)
  else (lastCleanupTime, false)

/-- The JSON body produced by the polling read path (part_006:84-104). The
outer catch path carries an `error` field and no `newMessages` field
(modelled as the empty list). -/
structure PollResponse where
  status : Nat
  error : Option String
  messages : List ChatMessage
  newMessages : List ChatMessage
  usersInRoom : List ChatUser
  onlineUsers : List ChatUser
  rooms : List Chatroom
  timestamp : Int
deriving DecidableEq, Repr

/-- The response assembly of the polling read path (part_006:41-91): each
sub-fetch outcome is caught locally and degraded to the empty collection,
the online list keeps users seen within the last two minutes, the delta
keeps messages newer than `since`, and the body carries a fresh timestamp
with status 200. -/
def pollAssemble (msgsR : Except String (List ChatMessage))
    (usersInRoomR : Except String (List ChatUser))
    (usersR : Except String (List ChatUser))
    (roomsR : Except String (List Chatroom))
    (sinceTimestamp now : Int) : PollResponse :=
  let messages := match msgsR with | Except.ok ms => ms | Except.error _ => []
  let usersInRoom :=
    match usersInRoomR with | Except.ok us => us | Except.error _ => []
  let allUsers := match usersR with | Except.ok us => us | Except.error _ => []
  let rooms := match roomsR with | Except.ok rs => rs | Except.error _ => []
  let twoMinutesAgo := now - 2 * 60 * 1000
  let onlineUsers := allUsers.filter (fun user => decide (twoMinutesAgo < user.lastSeen))
  let newMessages := messages.filter (fun msg => decide (sinceTimestamp < msg.timestamp))
  { status := 200
    error := none
    messages := messages
    newMessages := newMessages
    usersInRoom := usersInRoom
    onlineUsers := onlineUsers
    rooms := rooms
    timestamp := now }

/-- The outermost catch of the polling read path (part_006:92-105): even
when the whole handler fails, the response is a 200 with empty collections,
an embedded error message, and a fresh timestamp. -/
def pollGETResult (outerFail : Bool)
    (msgsR : Except String (List ChatMessage))
    (usersInRoomR : Except String (List ChatUser))
    (usersR : Except String (List ChatUser))
    (roomsR : Except String (List Chatroom))
    (sinceTimestamp now : Int) : PollResponse :=
  if outerFail then
    { status := 200
      error := some "Failed to fetch updates"
      messages := []
      newMessages := []
      usersInRoom := []
      onlineUsers := []
      rooms := []
      timestamp := now }
  else pollAssemble msgsR usersInRoomR usersR roomsR sinceTimestamp now

/-- The full polling read path `GET /api/poll` (part_006:22-106) on a
concrete store state: default the room to `"general"`, run the gated
cleanup, then assemble the response from the state's fetches. Returns the
new state, the response, and whether the cleanup ran. -/
def pollGET (st : StoreState) (sinceTimestamp : Int) (roomIdP : Option String)
    (now : Int) : StoreState × PollResponse × Bool :=
  let roomId := if jsStrFalsy roomIdP then "general" else roomIdP.getD ""
  let g := cleanupGate st.lastCleanupTime now
  let msgsState :=
    if g.2 then deleteAllOldMessages st.messagesByRoom now
    else st.messagesByRoom
  let st1 : StoreState :=
    { st with messagesByRoom := msgsState, lastCleanupTime := g.1 }
  let resp := pollAssemble
    (Except.ok (getMessagesRoom msgsState roomId now))
    (Except.ok (getUsersInRoom st1 roomId now))
    (Except.ok (getUsersList st.users now))
    (Except.ok (getChatroomsList st.rooms))
    sinceTimestamp now
  (st1, resp, g.2)

/-- A sequence of polling reads: each request carries its arrival time,
`since` value and room parameter; the result records, per request, whether
that request triggered the cleanup. -/
def runPolls : StoreState → List (Int × Int × Option String) → List Bool
  | _, [] => []
  | st, (now, since, rid) :: rest =>
    let r := pollGET st since rid now
    r.2.2 :: runPolls r.1 rest

/-- Decimal digit character, `'0'` through `'9'`. -/
def digitChar10 (d : Nat) : Char := Char.ofNat (48 + d)

/-- Decimal rendering of a natural number, modelling the JavaScript
`Number.prototype.toString()` of a nonnegative integer: most significant
digit first, and `0` renders as `"0"`. -/
def natToDecimal (n : Nat) : String :=
  if n = 0 then "0"
  else String.mk (((Nat.digits 10 n).map digitChar10).reverse)

/-- Decimal rendering of an integer, modelling the JavaScript
`Number.prototype.toString()` used for `Date.now().toString()`. -/
def jsNumToString (n : Int) : String :=
  if n < 0 then "-" ++ natToDecimal n.natAbs else natToDecimal n.natAbs

/-- The message payload posted to `POST /api/poll` with `type: "message"`:
every field may be absent, since the client sends arbitrary JSON
(part_006:113-143). -/
structure IncomingMessage where
  id : Option String
  content : Option String
  sender : Option String
  senderId : Option String
  timestamp : Option Int
  type : Option MsgType
  roomId : Option String
  file : Option FileData
deriving DecidableEq, Repr

/-- The defaulting applied by the message write path after validation
(part_006:125-143): a falsy timestamp becomes the current time, a falsy id
becomes `Date.now().toString()`, a missing kind becomes `"message"`, a falsy
room becomes `"general"`; every other field is carried over. -/
def buildMessage (d : IncomingMessage) (now : Int) : ChatMessage :=
  { id := if jsStrFalsy d.id then jsNumToString now else d.id.getD ""
    content := d.content
    sender := d.sender.getD ""
    senderId := d.senderId.getD ""
    timestamp := if jsIntFalsy d.timestamp then now else d.timestamp.getD 0
    type := (d.type).getD MsgType.message
    roomId := if jsStrFalsy d.roomId then some "general" else d.roomId
    file := d.file }

/-- The outcome of a message write: HTTP status and the resulting per-room
message store. -/
structure PostOutcome where
  status : Nat
  store : List (String × List RedisVal)
deriving DecidableEq, Repr

/-- The message branch of `POST /api/poll` (part_006:113-151): reject with
400 a payload lacking both content and file, or lacking sender name or
sender id, without touching the store; otherwise default the missing fields,
append via `addMessage`, and answer 200, or 500 leaving the store unchanged
when the append fails (`appendOk` models the append outcome). -/
def pollPostMessage (msgs : List (String × List RedisVal))
    (d : IncomingMessage) (now : Int) (appendOk : Bool) : PostOutcome :=
  if jsStrFalsy d.content ∧ d.file = none then { status := 400, store := msgs }
  else if jsStrFalsy d.sender ∨ jsStrFalsy d.senderId then
    { status := 400, store := msgs }
  else
    let message := buildMessage d now
    if appendOk then { status := 200, store := (addMessageRoom msgs message).1 }
    else { status := 500, store := msgs }

/-- Modelled from the spec: `deleteChatroom(roomId)` (src/lib/redis.ts:573)
is absent from src; per the spec's room `delete` it removes the room entry
and that room's entire message sequence. -/
def deleteChatroom (st : StoreState) (roomId : String) : StoreState :=
  { st with
    rooms := hdel st.rooms roomId
    messagesByRoom := hdel st.messagesByRoom roomId }

/-- The rooms DELETE route (src/lib/redis.ts:547-584): 400 on a falsy room
or user parameter, 404 when the room is absent, 403 when the requester is
not the creator; only the creator path reaches `deleteChatroom`. -/
def deleteRoomRoute (st : StoreState) (roomIdP userIdP : Option String) :
    Nat × StoreState :=
  if jsStrFalsy roomIdP then (400, st)
  else if jsStrFalsy userIdP then (400, st)
  else
    let roomId := roomIdP.getD ""
    let userId := userIdP.getD ""
    match getChatroom st.rooms roomId with
    | none => (404, st)
    | some room =>
      if room.createdBy ≠ userId then (403, st)
      else (200, deleteChatroom st roomId)

/-- Sample message used by concrete witnesses. -/
def sampleMsg (i : String) (ts : Int) : ChatMessage :=
  { id := i
    content := some "hello"
    sender := "Alice"
    senderId := "u1"
    timestamp := ts
    type := MsgType.message
    roomId := some "general"
    file := none }

theorem hlookup_hset_self {α : Type} (st : List (String × α)) (k : String) (v : α) :
    hlookup (hset st k v) k = some v := by
  induction st with
  | nil => simp [hset, hlookup]
  | cons p rest ih =>
    obtain ⟨k', w⟩ := p
    by_cases h : k' = k
    · simp [hset, h, hlookup]
    · simp [hset, h, hlookup, ih]

theorem hset_hset_self {α : Type} (st : List (String × α)) (k : String) (v : α) :
    hset (hset st k v) k v = hset st k v := by
  induction st with
  | nil => simp [hset]
  | cons p rest ih =>
    obtain ⟨k', w⟩ := p
    by_cases h : k' = k
    · simp [hset, h]
    · simp [hset, h, ih]

theorem digitChar10_inj : ∀ a < 10, ∀ b < 10, digitChar10 a = digitChar10 b → a = b := by
  decide

theorem map_digitChar10_inj :
    ∀ l1 l2 : List Nat, (∀ d ∈ l1, d < 10) → (∀ d ∈ l2, d < 10) →
      l1.map digitChar10 = l2.map digitChar10 → l1 = l2 := by
  intro l1
  induction l1 with
  | nil =>
    intro l2 _ _ h
    cases l2 with
    | nil => rfl
    | cons b t2 => simp at h
  | cons a t ih =>
    intro l2 h1 h2 h
    cases l2 with
    | nil => simp at h
    | cons b t2 =>
      simp only [List.map_cons, List.cons.injEq] at h
      have ha : a < 10 := h1 a (List.mem_cons_self a t)
      have hb : b < 10 := h2 b (List.mem_cons_self b t2)
      have hab : a = b := digitChar10_inj a ha b hb h.1
      have ht : t = t2 :=
        ih t2 (fun d hd => h1 d (List.mem_cons_of_mem a hd))
          (fun d hd => h2 d (List.mem_cons_of_mem b hd)) h.2
      rw [hab, ht]

theorem natToDecimal_singleton_zero {n : Nat} (hn : n ≠ 0)
    (h : (Nat.digits 10 n).map digitChar10 = [digitChar10 0]) : False := by
  have hlen : (Nat.digits 10 n).length = 1 := by
    have := congrArg List.length h
    simpa using this
  obtain ⟨d, hd⟩ : ∃ d, Nat.digits 10 n = [d] := by
    cases hdig : Nat.digits 10 n with
    | nil => rw [hdig] at hlen; simp at hlen
    | cons x t =>
      cases t with
      | nil => exact ⟨x, rfl⟩
      | cons y t2 => rw [hdig] at hlen; simp at hlen
  rw [hd] at h
  simp only [List.map_cons, List.map_nil, List.cons.injEq] at h
  have hdlt : d < 10 := Nat.digits_lt_base (by norm_num) (by rw [hd]; exact List.mem_cons_self d [])
  have hd0 : d = 0 := digitChar10_inj d hdlt 0 (by norm_num) h.1
  have hlast := Nat.getLast_digit_ne_zero 10 hn
  simp only [hd, hd0, List.getLast_singleton] at hlast
  exact hlast rfl

theorem natToDecimal_inj : ∀ a b : Nat, natToDecimal a = natToDecimal b → a = b := by
  intro a b h
  by_cases ha : a = 0 <;> by_cases hb : b = 0
  · rw [ha, hb]
  · exfalso
    rw [ha] at h
    simp only [natToDecimal, if_pos rfl, if_neg hb] at h
    have h0 : ("0" : String) = String.mk [digitChar10 0] := rfl
    rw [h0] at h
    have hlist : [digitChar10 0] = ((Nat.digits 10 b).map digitChar10).reverse := by
      injection h
    have : (Nat.digits 10 b).map digitChar10 = [digitChar10 0] := by
      have := congrArg List.reverse hlist
      simpa using this.symm
    exact natToDecimal_singleton_zero hb this
  · exfalso
    rw [hb] at h
    simp only [natToDecimal, if_pos rfl, if_neg ha] at h
    have h0 : ("0" : String) = String.mk [digitChar10 0] := rfl
    rw [h0] at h
    have hlist : ((Nat.digits 10 a).map digitChar10).reverse = [digitChar10 0] := by
      injection h
    have : (Nat.digits 10 a).map digitChar10 = [digitChar10 0] := by
      have := congrArg List.reverse hlist
      simpa using this
    exact natToDecimal_singleton_zero ha this
  · simp only [natToDecimal, if_neg ha, if_neg hb] at h
    have hlist : ((Nat.digits 10 a).map digitChar10).reverse =
        ((Nat.digits 10 b).map digitChar10).reverse := by
      injection h
    rw [List.reverse_inj] at hlist
    have hdig : Nat.digits 10 a = Nat.digits 10 b :=
      map_digitChar10_inj _ _
        (fun d hd => Nat.digits_lt_base (by norm_num) hd)
        (fun d hd => Nat.digits_lt_base (by norm_num) hd) hlist
    exact Nat.digits_inj_iff.mp hdig

theorem jsNumToString_inj_nonneg (a b : Int) (ha : 0 ≤ a) (hb : 0 ≤ b)
    (h : jsNumToString a = jsNumToString b) : a = b := by
  simp only [jsNumToString, if_neg (not_lt.mpr ha), if_neg (not_lt.mpr hb)] at h
  have := natToDecimal_inj _ _ h
  omega

/-- C10: `getMessages` is total at the public interface: a failed store read
yields the empty list, and a stored entry that fails JSON parsing is
replaced in place (neither dropped nor surfaced as an error) by a synthetic
system message with id `"error"`, sender `"System"` and the current
timestamp, which always survives the retention filter. -/
theorem getMessages_total_and_degrades :
    (∀ (e : String) (now : Int), getMessages (Except.error e) now = []) ∧
    (∀ (xs ys : List RedisVal) (s : String) (now : Int),
      getMessages (Except.ok (xs ++ RedisVal.badVal s :: ys)) now =
        getMessages (Except.ok xs) now ++
          errorMessage now :: getMessages (Except.ok ys) now) ∧
    (∀ now : Int, (errorMessage now).id = "error" ∧
      (errorMessage now).sender = "System" ∧
      (errorMessage now).timestamp = now ∧
      (errorMessage now).type = MsgType.system) := by
  refine ⟨fun e now => rfl, fun xs ys s now => ?_, fun now => ⟨rfl, rfl, rfl, rfl⟩⟩
  simp only [getMessages, List.map_append, List.map_cons, List.filter_append,
    List.filter_cons]
  have herr : decide (now - 60 * 60 * 1000 ≤
      (parseMessageEntry now (RedisVal.badVal s)).timestamp) = true := by
    simp only [parseMessageEntry, errorMessage, decide_eq_true_eq]
    omega
  rw [herr]
  simp [parseMessageEntry]

/-- C4: the polling read path always answers 200 with a fresh server
timestamp; a failure of any one sub-fetch (messages, users in room, all
users, rooms) produces exactly the response of an empty fetch of that field,
leaving every other field intact; and the outermost failure path yields a
200 response with empty collections, an embedded error, and the timestamp. -/
theorem pollRead_always_answers :
    (∀ (outerFail : Bool) (mR : Except String (List ChatMessage))
        (uR aR : Except String (List ChatUser))
        (rR : Except String (List Chatroom)) (s now : Int),
      (pollGETResult outerFail mR uR aR rR s now).status = 200 ∧
      (pollGETResult outerFail mR uR aR rR s now).timestamp = now) ∧
    (∀ (e : String) uR aR rR (s now : Int),
      pollGETResult false (Except.error e) uR aR rR s now =
        pollGETResult false (Except.ok []) uR aR rR s now) ∧
    (∀ mR (e : String) aR rR (s now : Int),
      pollGETResult false mR (Except.error e) aR rR s now =
        pollGETResult false mR (Except.ok []) aR rR s now) ∧
    (∀ mR uR (e : String) rR (s now : Int),
      pollGETResult false mR uR (Except.error e) rR s now =
        pollGETResult false mR uR (Except.ok []) rR s now) ∧
    (∀ mR uR aR (e : String) (s now : Int),
      pollGETResult false mR uR aR (Except.error e) s now =
        pollGETResult false mR uR aR (Except.ok []) s now) ∧
    (∀ mR uR aR rR (s now : Int),
      pollGETResult true mR uR aR rR s now =
        { status := 200
          error := some "Failed to fetch updates"
          messages := []
          newMessages := []
          usersInRoom := []
          onlineUsers := []
          rooms := []
          timestamp := now }) := by
  refine ⟨fun outerFail mR uR aR rR s now => ?_,
    fun e uR aR rR s now => rfl, fun mR e aR rR s now => rfl,
    fun mR uR e rR s now => rfl, fun mR uR aR e s now => rfl,
    fun mR uR aR rR s now => rfl⟩
  cases outerFail <;> exact ⟨rfl, rfl⟩

/-- C2: evaluation of `deleteOldMessages` at the failing input. The store
holds two stale messages (timestamps 0 and 1) and one fresh message
(timestamp 7100000) at time 7200000 (cutoff 3600000): the sweep deletes the
first stale message and the fresh one, keeps the second stale message, and
reports 2 deletions — contradicting its stated purpose of removing exactly
the expired messages. -/
theorem deleteOldMessages_misdeletes :
    deleteOldMessagesList
        [RedisVal.jsonVal (sampleMsg "m1" 0), RedisVal.jsonVal (sampleMsg "m2" 1),
         RedisVal.jsonVal (sampleMsg "m3" 7100000)] 7200000 =
      ([RedisVal.jsonVal (sampleMsg "m2" 1)], 2) ∧
    (sampleMsg "m2" 1).timestamp < 7200000 - 60 * 60 * 1000 ∧
    7200000 - 60 * 60 * 1000 ≤ (sampleMsg "m3" 7100000).timestamp := by
  exact ⟨rfl, by decide, by decide⟩

/-- C7 counterexample: the current room identifier is not stored by
`updateUser` — two heartbeat records identical except for their current room
produce identical stored directories, so the claim that the upsert stores
the optional current room identifier is false. -/
theorem updateUser_drops_room :
    ∃ u1 u2 : HeartbeatUser, u1 ≠ u2 ∧ u1.id = u2.id ∧ u1.name = u2.name ∧
      u1.lastSeen = u2.lastSeen ∧ u1.currentRoomId = some "general" ∧
      u2.currentRoomId = none ∧
      (updateUser [] u1).1 = (updateUser [] u2).1 := by
  refine ⟨⟨"u1", "Alice", 1000, some "general"⟩, ⟨"u1", "Alice", 1000, none⟩,
    ?_, rfl, rfl, rfl, rfl, rfl, rfl⟩
  intro h
  have := congrArg HeartbeatUser.currentRoomId h
  simp at this

/-- C7 amended: `updateUser` stores the display name and the last-seen
timestamp (but not the current room) under the user's identifier, publishes
a `user-update` notification carrying the record, and is idempotent on the
stored directory. -/
theorem updateUser_stores_and_idempotent :
    ∀ (st : List (String × UserVal)) (u : HeartbeatUser),
      hlookup (updateUser st u).1 u.id =
        some (UserVal.jsonVal { name := u.name, lastSeen := u.lastSeen }) ∧
      (updateUser (updateUser st u).1 u).1 = (updateUser st u).1 ∧
      (updateUser st u).2 =
        PubEvent.userUpdate u.id u.name u.lastSeen u.currentRoomId := by
  intro st u
  refine ⟨hlookup_hset_self st u.id _, ?_, rfl⟩
  exact hset_hset_self st u.id _

/-- C1: for a room whose stored list holds exactly the appended messages,
the polling read returns the message in the full list iff it is within the
one-hour retention window, returns it in the `newMessages` delta iff it is
retained and newer than the query timestamp, and both lists preserve append
order (they are sublists of the appended sequence). -/
theorem pollRead_message_visibility
    (appended : List ChatMessage) (t now : Int) (m : ChatMessage)
    (uR aR : Except String (List ChatUser)) (rR : Except String (List Chatroom))
    (hm : m ∈ appended) :
    (m ∈ (pollAssemble
        (Except.ok (getMessages (Except.ok (appended.map RedisVal.jsonVal)) now))
        uR aR rR t now).messages ↔ now - 60 * 60 * 1000 ≤ m.timestamp) ∧
    (m ∈ (pollAssemble
        (Except.ok (getMessages (Except.ok (appended.map RedisVal.jsonVal)) now))
        uR aR rR t now).newMessages ↔
      (now - 60 * 60 * 1000 ≤ m.timestamp ∧ t < m.timestamp)) ∧
    (pollAssemble
        (Except.ok (getMessages (Except.ok (appended.map RedisVal.jsonVal)) now))
        uR aR rR t now).messages.Sublist appended ∧
    (pollAssemble
        (Except.ok (getMessages (Except.ok (appended.map RedisVal.jsonVal)) now))
        uR aR rR t now).newMessages.Sublist appended := by
  have hmsgs : getMessages (Except.ok (appended.map RedisVal.jsonVal)) now =
      appended.filter (fun msg => decide (now - 60 * 60 * 1000 ≤ msg.timestamp)) := by
    simp only [getMessages, List.map_map]
    have hid : List.map (parseMessageEntry now ∘ RedisVal.jsonVal) appended = appended :=
      List.map_id'' (fun x => rfl) appended
    rw [hid]
  have hfull : (pollAssemble
      (Except.ok (getMessages (Except.ok (appended.map RedisVal.jsonVal)) now))
      uR aR rR t now).messages =
      appended.filter (fun msg => decide (now - 60 * 60 * 1000 ≤ msg.timestamp)) := hmsgs
  have hdelta : (pollAssemble
      (Except.ok (getMessages (Except.ok (appended.map RedisVal.jsonVal)) now))
      uR aR rR t now).newMessages =
      (appended.filter (fun msg => decide (now - 60 * 60 * 1000 ≤ msg.timestamp))).filter
        (fun msg => decide (t < msg.timestamp)) := by
    show (getMessages (Except.ok (appended.map RedisVal.jsonVal)) now).filter _ = _
    rw [hmsgs]
  refine ⟨?_, ?_, ?_, ?_⟩
  · rw [hfull]
    simp [List.mem_filter, hm]
  · rw [hdelta]
    simp [List.mem_filter, hm]
    tauto
  · rw [hfull]
    exact List.filter_sublist appended
  · rw [hdelta]
    exact (List.filter_sublist _).trans (List.filter_sublist appended)

/-- C1 witness: a single retained message at a concrete query. -/
theorem pollRead_message_visibility_witness :
    ((sampleMsg "a" 50) ∈ (pollAssemble
        (Except.ok (getMessages
          (Except.ok ([sampleMsg "a" 50].map RedisVal.jsonVal)) 100))
        (Except.ok []) (Except.ok []) (Except.ok []) 0 100).messages ↔
      (100 : Int) - 60 * 60 * 1000 ≤ (sampleMsg "a" 50).timestamp) ∧
    ((sampleMsg "a" 50) ∈ (pollAssemble
        (Except.ok (getMessages
          (Except.ok ([sampleMsg "a" 50].map RedisVal.jsonVal)) 100))
        (Except.ok []) (Except.ok []) (Except.ok []) 0 100).newMessages ↔
      ((100 : Int) - 60 * 60 * 1000 ≤ (sampleMsg "a" 50).timestamp ∧
        (0 : Int) < (sampleMsg "a" 50).timestamp)) := by
  have h := pollRead_message_visibility [sampleMsg "a" 50] 0 100 (sampleMsg "a" 50)
    (Except.ok []) (Except.ok []) (Except.ok [])
    (List.mem_singleton.mpr rfl)
  exact ⟨h.1, h.2.1⟩

theorem runPolls_no_trigger :
    ∀ (ts : List (Int × Int × Option String)) (st : StoreState),
      (∀ q ∈ ts, q.1 - st.lastCleanupTime < CLEANUP_INTERVAL) →
      ∀ b ∈ runPolls st ts, b = false := by
  intro ts
  induction ts with
  | nil => intro st _ b hb; simp [runPolls] at hb
  | cons q rest ih =>
    intro st hts b hb
    obtain ⟨now, s, rid⟩ := q
    have hq : now - st.lastCleanupTime < CLEANUP_INTERVAL :=
      hts (now, s, rid) (List.mem_cons_self _ _)
    have hnot : ¬ CLEANUP_INTERVAL < now - st.lastCleanupTime := by omega
    have hgate : cleanupGate st.lastCleanupTime now = (st.lastCleanupTime, false) := by
      unfold cleanupGate
      exact if_neg hnot
    have hhead : (pollGET st s rid now).2.2 = false := by
      show (cleanupGate st.lastCleanupTime now).2 = false
      rw [hgate]
    have hlast : (pollGET st s rid now).1.lastCleanupTime = st.lastCleanupTime := by
      show (cleanupGate st.lastCleanupTime now).1 = st.lastCleanupTime
      rw [hgate]
    simp only [runPolls, List.mem_cons] at hb
    rcases hb with hb | hb
    · rw [hb, hhead]
    · exact ih (pollGET st s rid now).1
        (fun q hqmem => by rw [hlast]; exact hts q (List.mem_cons_of_mem _ hqmem)) b hb

/-- C3: the expired-message purge is gated to at most once per five-minute
interval: when a polling request triggers the purge, every later request in
a sequence arriving less than the interval after the recorded last-cleanup
time leaves the purge untriggered, regardless of how many requests arrive. -/
theorem cleanup_rate_limited
    (st : StoreState) (s : Int) (rid : Option String) (now : Int)
    (ts : List (Int × Int × Option String))
    (htrig : (pollGET st s rid now).2.2 = true)
    (hts : ∀ q ∈ ts, q.1 - now < CLEANUP_INTERVAL) :
    ∀ b ∈ runPolls (pollGET st s rid now).1 ts, b = false := by
  have hcond : CLEANUP_INTERVAL < now - st.lastCleanupTime := by
    by_contra hc
    have hgate : cleanupGate st.lastCleanupTime now = (st.lastCleanupTime, false) := by
      unfold cleanupGate
      exact if_neg hc
    have : (pollGET st s rid now).2.2 = false := by
      show (cleanupGate st.lastCleanupTime now).2 = false
      rw [hgate]
    rw [this] at htrig
    exact Bool.false_ne_true htrig
  have h1 : (pollGET st s rid now).1.lastCleanupTime = now := by
    show (cleanupGate st.lastCleanupTime now).1 = now
    unfold cleanupGate
    rw [if_pos hcond]
  exact runPolls_no_trigger ts (pollGET st s rid now).1
    (fun q hq => by rw [h1]; exact hts q hq)

/-- C3 witness: a trigger at time 1000000 from a cold state, followed by two
requests inside the five-minute window, neither of which triggers. -/
theorem cleanup_rate_limited_witness :
    (pollGET ⟨[], [], [], 0⟩ 0 none 1000000).2.2 = true ∧
    ∀ b ∈ runPolls (pollGET ⟨[], [], [], 0⟩ 0 none 1000000).1
        [(1000001, 0, none), (1299999, 5, some "general")], b = false := by
  refine ⟨by decide, cleanup_rate_limited ⟨[], [], [], 0⟩ 0 none 1000000
    [(1000001, 0, none), (1299999, 5, some "general")] (by decide) ?_⟩
  intro q hq
  simp only [List.mem_cons, List.not_mem_nil, or_false] at hq
  rcases hq with h | h <;> rw [h] <;> decide

/-- C5: the message write path rejects with 400, leaving the store
untouched, a payload lacking both content and file or lacking sender name
or sender identifier; otherwise it defaults the missing id, timestamp, kind
and room (room to `"general"`, timestamp to the current time, id to the
current time's decimal string), appends the built message, and answers 500
exactly when the append fails (leaving the store untouched in that case). -/
theorem pollPost_message_contract
    (msgs : List (String × List RedisVal)) (d : IncomingMessage) (now : Int)
    (ok : Bool) :
    ((jsStrFalsy d.content = true ∧ d.file = none) →
      pollPostMessage msgs d now ok = { status := 400, store := msgs }) ∧
    (¬(jsStrFalsy d.content = true ∧ d.file = none) →
      (jsStrFalsy d.sender = true ∨ jsStrFalsy d.senderId = true) →
      pollPostMessage msgs d now ok = { status := 400, store := msgs }) ∧
    (¬(jsStrFalsy d.content = true ∧ d.file = none) →
      jsStrFalsy d.sender = false → jsStrFalsy d.senderId = false →
      pollPostMessage msgs d now ok =
        if ok then
          { status := 200, store := (addMessageRoom msgs (buildMessage d now)).1 }
        else { status := 500, store := msgs }) ∧
    (jsStrFalsy d.roomId = true → (buildMessage d now).roomId = some "general") ∧
    (jsIntFalsy d.timestamp = true → (buildMessage d now).timestamp = now) ∧
    (jsStrFalsy d.id = true → (buildMessage d now).id = jsNumToString now) ∧
    (d.type = none → (buildMessage d now).type = MsgType.message) := by
  refine ⟨?_, ?_, ?_, ?_, ?_, ?_, ?_⟩
  · intro h
    simp [pollPostMessage, h]
  · intro h1 h2
    rcases h2 with h2 | h2 <;> simp [pollPostMessage, h1, h2]
  · intro h1 h2 h3
    simp [pollPostMessage, h1, h2, h3]
  · intro h
    simp [buildMessage, h]
  · intro h
    simp [buildMessage, h]
  · intro h
    simp [buildMessage, h]
  · intro h
    simp [buildMessage, h]

/-- C5 witness: a valid payload with every optional field missing, a
successful append, plus an invalid payload rejected with 400. -/
theorem pollPost_message_contract_witness :
    pollPostMessage [] ⟨none, some "hi", some "Alice", some "u1", none, none,
        none, none⟩ 77 true =
      { status := 200
        store := (addMessageRoom []
          (buildMessage ⟨none, some "hi", some "Alice", some "u1", none, none,
            none, none⟩ 77)).1 } ∧
    (buildMessage ⟨none, some "hi", some "Alice", some "u1", none, none,
        none, none⟩ 77).roomId = some "general" ∧
    (buildMessage ⟨none, some "hi", some "Alice", some "u1", none, none,
        none, none⟩ 77).timestamp = 77 ∧
    (buildMessage ⟨none, some "hi", some "Alice", some "u1", none, none,
        none, none⟩ 77).id = jsNumToString 77 ∧
    pollPostMessage [] ⟨none, none, some "Alice", some "u1", none, none,
        none, none⟩ 77 true = { status := 400, store := [] } := by
  have h1 := pollPost_message_contract []
    ⟨none, some "hi", some "Alice", some "u1", none, none, none, none⟩ 77 true
  have h2 := pollPost_message_contract []
    ⟨none, none, some "Alice", some "u1", none, none, none, none⟩ 77 true
  refine ⟨h1.2.2.1 (by decide) rfl rfl, h1.2.2.2.1 rfl, h1.2.2.2.2.1 rfl,
    h1.2.2.2.2.2.1 rfl, h2.1 (by decide)⟩

/-- C6: the polling read derives the online list purely: the user and room
stores are unchanged, the returned online users are exactly the directory
entries last seen strictly within two minutes of now, a user last seen
three minutes ago is excluded, and the raw directory view is unaffected by
the request. -/
theorem onlineUsers_derived_view
    (st : StoreState) (s : Int) (rid : Option String) (now : Int) :
    (pollGET st s rid now).1.users = st.users ∧
    (pollGET st s rid now).1.rooms = st.rooms ∧
    getUsersList (pollGET st s rid now).1.users now = getUsersList st.users now ∧
    (∀ u : ChatUser, u ∈ (pollGET st s rid now).2.1.onlineUsers ↔
      (u ∈ getUsersList st.users now ∧ now - u.lastSeen < 2 * 60 * 1000)) ∧
    (∀ u : ChatUser, u.lastSeen = now - 3 * 60 * 1000 →
      u ∉ (pollGET st s rid now).2.1.onlineUsers) := by
  have husers : (pollGET st s rid now).1.users = st.users := rfl
  have hrooms : (pollGET st s rid now).1.rooms = st.rooms := rfl
  have honline : (pollGET st s rid now).2.1.onlineUsers =
      (getUsersList st.users now).filter
        (fun user => decide (now - 2 * 60 * 1000 < user.lastSeen)) := rfl
  refine ⟨husers, hrooms, by rw [husers], ?_, ?_⟩
  · intro u
    rw [honline]
    simp only [List.mem_filter, decide_eq_true_eq]
    constructor
    · rintro ⟨hmem, hlt⟩
      exact ⟨hmem, by omega⟩
    · rintro ⟨hmem, hlt⟩
      exact ⟨hmem, by omega⟩
  · intro u hu
    rw [honline]
    simp only [List.mem_filter, decide_eq_true_eq]
    rintro ⟨-, hlt⟩
    omega

/-- C6 witness: at time 1000000, a user last seen at 820000 (three minutes
earlier) is in the raw directory but not in the online list. -/
theorem onlineUsers_derived_view_witness :
    (⟨"u1", "Bob", 820000⟩ : ChatUser) ∈
      getUsersList [("u1", UserVal.jsonVal ⟨"Bob", 820000⟩)] 1000000 ∧
    (⟨"u1", "Bob", 820000⟩ : ChatUser) ∉
      (pollGET ⟨[], [("u1", UserVal.jsonVal ⟨"Bob", 820000⟩)], [], 999999999⟩
        0 none 1000000).2.1.onlineUsers ∧
    (pollGET ⟨[], [("u1", UserVal.jsonVal ⟨"Bob", 820000⟩)], [], 999999999⟩
        0 none 1000000).1.users = [("u1", UserVal.jsonVal ⟨"Bob", 820000⟩)] := by
  have h := onlineUsers_derived_view
    ⟨[], [("u1", UserVal.jsonVal ⟨"Bob", 820000⟩)], [], 999999999⟩ 0 none 1000000
  refine ⟨by decide, h.2.2.2.2 ⟨"u1", "Bob", 820000⟩ (by decide), h.1⟩

/-- C8: a DELETE of an existing room by a non-creator answers 403 and leaves
the entire state — the room record and every room's message sequence —
unchanged; a DELETE of an absent room answers 404 and also leaves the state
unchanged. -/
theorem deleteRoom_authorization
    (st : StoreState) (rid uid : String) (hrid : rid ≠ "") (huid : uid ≠ "") :
    (∀ room : Chatroom, getChatroom st.rooms rid = some room →
      room.createdBy ≠ uid →
      deleteRoomRoute st (some rid) (some uid) = (403, st)) ∧
    (getChatroom st.rooms rid = none →
      deleteRoomRoute st (some rid) (some uid) = (404, st)) := by
  constructor
  · intro room hroom hneq
    simp [deleteRoomRoute, jsStrFalsy, hrid, huid, hroom, hneq]
  · intro hnone
    simp [deleteRoomRoute, jsStrFalsy, hrid, huid, hnone]

/-- C8 witness: a concrete room deleted by a non-creator yields 403 with the
state intact, and an absent room yields 404 with the state intact. -/
theorem deleteRoom_authorization_witness :
    deleteRoomRoute
        ⟨[("r1", [RedisVal.jsonVal (sampleMsg "m" 1)])], [],
          [("r1", ⟨"r1", "Room", "", "creator", false, [], 5⟩)], 0⟩
        (some "r1") (some "other") =
      (403, ⟨[("r1", [RedisVal.jsonVal (sampleMsg "m" 1)])], [],
        [("r1", ⟨"r1", "Room", "", "creator", false, [], 5⟩)], 0⟩) ∧
    deleteRoomRoute
        ⟨[("r1", [RedisVal.jsonVal (sampleMsg "m" 1)])], [],
          [("r1", ⟨"r1", "Room", "", "creator", false, [], 5⟩)], 0⟩
        (some "nope") (some "other") =
      (404, ⟨[("r1", [RedisVal.jsonVal (sampleMsg "m" 1)])], [],
        [("r1", ⟨"r1", "Room", "", "creator", false, [], 5⟩)], 0⟩) := by
  have h := deleteRoom_authorization
    ⟨[("r1", [RedisVal.jsonVal (sampleMsg "m" 1)])], [],
      [("r1", ⟨"r1", "Room", "", "creator", false, [], 5⟩)], 0⟩
    "r1" "other" (by decide) (by decide)
  have h2 := deleteRoom_authorization
    ⟨[("r1", [RedisVal.jsonVal (sampleMsg "m" 1)])], [],
      [("r1", ⟨"r1", "Room", "", "creator", false, [], 5⟩)], 0⟩
    "nope" "other" (by decide) (by decide)
  exact ⟨h.1 ⟨"r1", "Room", "", "creator", false, [], 5⟩ rfl (by decide),
    h2.2 rfl⟩

/-- C9 counterexample: identifier uniqueness per room fails — two distinct
id-less messages accepted by the write path in the same millisecond are both
appended to room `"general"` with the same server-assigned identifier. -/
theorem message_ids_collide :
    ∃ m1 m2 : ChatMessage,
      (pollPostMessage [] ⟨none, some "hi", some "Alice", some "u1", none,
          none, none, none⟩ 77 true).store =
        [("general", [RedisVal.jsonVal m1])] ∧
      (pollPostMessage [("general", [RedisVal.jsonVal m1])]
          ⟨none, some "yo", some "Bob", some "u2", none, none, none, none⟩
          77 true).store =
        [("general", [RedisVal.jsonVal m1, RedisVal.jsonVal m2])] ∧
      m1 ≠ m2 ∧ m1.id = m2.id ∧ m1.roomId = m2.roomId := by
  refine ⟨buildMessage ⟨none, some "hi", some "Alice", some "u1", none, none,
      none, none⟩ 77,
    buildMessage ⟨none, some "yo", some "Bob", some "u2", none, none, none,
      none⟩ 77, rfl, rfl, ?_, rfl, rfl⟩
  intro h
  have := congrArg ChatMessage.content h
  simp [buildMessage] at this

/-- C9 amended: identifiers are time-derived, not unique — a client-omitted
id becomes the decimal string of the server time, so same-millisecond
appends collide; but two messages whose ids are server-assigned at distinct
(nonnegative) times do receive distinct identifiers. -/
theorem assigned_ids_distinct_times
    (d1 d2 : IncomingMessage) (t1 t2 : Int)
    (h1 : jsStrFalsy d1.id = true) (h2 : jsStrFalsy d2.id = true)
    (hn1 : 0 ≤ t1) (hn2 : 0 ≤ t2) (hne : t1 ≠ t2) :
    (buildMessage d1 t1).id ≠ (buildMessage d2 t2).id := by
  simp only [buildMessage, h1, h2, if_pos]
  intro h
  exact hne (jsNumToString_inj_nonneg t1 t2 hn1 hn2 h)

/-- C9 amended witness: id-less messages accepted at times 5 and 7 receive
distinct identifiers. -/
theorem assigned_ids_distinct_times_witness :
    (buildMessage ⟨none, some "hi", some "Alice", some "u1", none, none,
        none, none⟩ 5).id ≠
      (buildMessage ⟨none, some "yo", some "Bob", some "u2", none, none,
        none, none⟩ 7).id := by
  exact assigned_ids_distinct_times _ _ 5 7 rfl rfl (by decide) (by decide)
    (by decide)

end ExistChat
